import Mathlib

/-!
Verification development for the segmented crash-resilient logger
(`system/loggerd/logger.h`).

The file shallowly embeds the two classes of the header:

* `RawFile` — a "Framed Sink": one output file, optionally wrapped in a
  bzip2 streaming compressor.  Its constructor, destructor and the two
  branches of `write` are embedded as pure functions.  External calls
  (`BZ2_bzWrite`, `util::safe_fwrite`) are modelled by an outcome oracle:
  the embedding is parameterised by the sequence of results those calls
  return, and the model records the calls the code issues together with
  the bytes the compressor has accepted into its stream.

* `LoggerState` — the "Route Manager".  Only its declarations and the
  inline members (`part = -1`, `exit_signal = 0`, `segment()`,
  `setExitSignal`) are in the header; the bodies of the constructor,
  destructor, `next()` and `write()` live in `logger.cc`, which is not
  part of the sources here, so those bodies are modelled from the spec
  (each such definition carries a `Modelled from the spec:` comment).
-/

namespace Logger

/-- Result of one call to the external compressor entry point
`BZ2_bzWrite(&bzerror, bz_file, buf, len)`, as observable through its
interface: either the call returns `BZ_OK` having accepted all `len`
submitted bytes into the compression stream, or it fails with
`BZ_IO_ERROR` while `errno == EINTR` (an interrupted write) having
already consumed some prefix of `consumed` bytes of the submitted input
into the stream, or it fails with some other error code having likewise
consumed a prefix. -/
inductive BzOutcome where
  | ok : BzOutcome
  | ioErrorEintr (consumed : Nat) : BzOutcome
  | otherError (code : Int) (consumed : Nat) : BzOutcome
  deriving DecidableEq

/-- Holds (is `true`) exactly on the interrupted-call outcome
(`bzerror == BZ_IO_ERROR && errno == EINTR`). -/
def BzOutcome.isEintr : BzOutcome → Bool
  | .ioErrorEintr _ => true
  | _ => false

/-- State observable after running (a finite portion of) the compressed
write loop of `RawFile::write`:

* `written` — the local `size_t written` counter;
* `stream`  — the bytes the compressor has accepted so far during this
  write call (what a decompressor would eventually reproduce for it);
* `calls`   — the `(offset, length)` arguments of each `BZ2_bzWrite`
  call issued, i.e. `(written * count, count * (size - written))`;
* `looping` — `true` when the oracle trace ran out while the loop was
  still going round (the loop has not terminated yet). -/
structure BzLoopRes where
  written : Nat
  stream : List Nat
  calls : List (Nat × Nat)
  looping : Bool
  deriving DecidableEq

/-- The `while (written < size)` loop of the compressed branch of
`RawFile::write`, embedded over an oracle trace of `BZ2_bzWrite`
outcomes.  Faithful to the source:

```
size_t count = 1;
while (written < size) {
  BZ2_bzWrite(&bzerror, bz_file, (void*)((char*)data + written * count),
              count * (size - written));
  if (bzerror == BZ_IO_ERROR && errno == EINTR) {
    continue; // Retry if interrupted
  } else if (bzerror != BZ_OK) {
    break; // Exit on other errors
  }
  written = size; // All data written successfully
}
```

Each iteration submits the slice of `data` starting at byte
`written * count` of length `count * (size - written)`; the outcome
decides how much of it enters the compression stream and how the loop
continues.  When the trace is exhausted mid-loop the result is marked
`looping := true`. -/
def bzWriteLoop (data : List Nat) (size count written : Nat)
    (stream : List Nat) (calls : List (Nat × Nat)) :
    List BzOutcome → BzLoopRes
  | [] =>
      if written < size then
        ⟨written, stream, calls, true⟩
      else
        ⟨written, stream, calls, false⟩
  | o :: rest =>
      if written < size then
        let submitted := (data.drop (written * count)).take (count * (size - written))
        let calls := calls ++ [(written * count, count * (size - written))]
        match o with
        | .ok =>
            bzWriteLoop data size count size (stream ++ submitted) calls rest
        | .ioErrorEintr k =>
            bzWriteLoop data size count written (stream ++ submitted.take k) calls rest
        | .otherError _ k =>
            ⟨written, stream ++ submitted.take k, calls, false⟩
      else
        ⟨written, stream, calls, false⟩

/-- The compressed (`bz_file != nullptr`) branch of `RawFile::write`,
run on buffer `data` (so `size = data.length`) against an oracle trace:
`written` starts at `0`, `count` at `1`, and the per-call stream
contribution starts empty. -/
def RawFile.writeCompressed (data : List Nat) (trace : List BzOutcome) : BzLoopRes :=
  bzWriteLoop data data.length 1 0 [] [] trace

/-- Whether the `assert(written == size)` that ends the compressed
branch holds for a terminated run. -/
def BzLoopRes.assertOk (r : BzLoopRes) (size : Nat) : Bool :=
  r.written == size

/-- Result of the uncompressed branch of `RawFile::write`:
`calls` records the byte count requested from each underlying
`util::safe_fwrite` call, `assertOk` whether `assert(written == size)`
holds. -/
structure PlainWriteRes where
  calls : List Nat
  assertOk : Bool
  deriving DecidableEq

/-- The uncompressed (`else`) branch of `RawFile::write`:

```
size_t written = util::safe_fwrite(data, 1, size, file);
assert(written == size);
```

Exactly one call of the underlying write is issued, asking for the whole
buffer; `ret` is the count that external call reports back. -/
def RawFile.writeUncompressed (size ret : Nat) : PlainWriteRes :=
  ⟨[size], ret == size⟩

/-- What `RawFile::RawFile(path, use_bz2)` opens and configures:

```
std::string file_path = path + (use_bz2? ".bz2" : "");
file = util::safe_fopen(file_path.c_str(), "wb");
assert(file != nullptr);
if (use_bz2) {
  int bzerror;
  bz_file = BZ2_bzWriteOpen(&bzerror, file, 9, 0, 30);
  assert(bzerror == BZ_OK);
}
```

`bzParams` is `some (blockSize100k, verbosity, workFactor)` when the
compressor is opened, `none` otherwise.  (In bzlib, blockSize100k 9 is
the maximum compression level and workFactor 30 is the library default,
the same value a caller would get by passing 0.) -/
structure RawFileOpen where
  file_path : String
  mode : String
  bzParams : Option (Nat × Nat × Nat)
  deriving DecidableEq

def RawFile.ctor (path : String) (use_bz2 : Bool) : RawFileOpen :=
  { file_path := path ++ (if use_bz2 then ".bz2" else "")
    mode := "wb"
    bzParams := if use_bz2 then some (9, 0, 30) else none }

/-- The external calls the destructor `RawFile::~RawFile` can issue, in
order.  `bzWriteClose abandon` is `BZ2_bzWriteClose(&bzerror, bz_file,
abandon, nullptr, nullptr)`; `abandon = 0` finalizes (does not abandon)
the compression stream. -/
inductive TeardownAction where
  | bzWriteClose (abandon : Nat) : TeardownAction
  | safe_fflush : TeardownAction
  | fcloseFile : TeardownAction
  deriving DecidableEq

/-- The action sequence of `RawFile::~RawFile`, embedded from the source:

```
if (bz_file) {
  int bzerror;
  BZ2_bzWriteClose(&bzerror, bz_file, 0, nullptr, nullptr);
  assert(bzerror == BZ_OK);
} else {
  util::safe_fflush(file);
  int err = fclose(file);
  assert(err == 0);
}
```

Note the two branches are exclusive: the compressed branch issues only
the `BZ2_bzWriteClose` call. -/
def RawFile.dtor (compressed : Bool) : List TeardownAction :=
  if compressed then
    [.bzWriteClose 0]
  else
    [.safe_fflush, .fcloseFile]

/-- Whether the destructor's assertion holds: the compressed branch
asserts `bzerror == BZ_OK` (0), the uncompressed branch asserts the
`fclose` return is 0 (the `safe_fflush` return value is discarded). -/
def RawFile.dtorAssertOk (compressed : Bool) (bzerror closeErr : Int) : Bool :=
  if compressed then bzerror == 0 else closeErr == 0

/-- The kinds of sentinel markers of the Sentinel Codec
(`cereal::Sentinel::SentinelType`). -/
inductive SentinelKind where
  | routeStart : SentinelKind
  | routeEnd : SentinelKind
  | segmentStart : SentinelKind
  | segmentEnd : SentinelKind
  deriving DecidableEq

/-- One frame of a log channel: either an opaque caller-supplied data
buffer or a sentinel marker carrying an exit code. -/
inductive Frame where
  | data (bytes : List Nat) : Frame
  | sentinel (kind : SentinelKind) (code : Int) : Frame
  deriving DecidableEq

/-- The observable state of a `LoggerState` (Route Manager) together
with the route-scoped filesystem facts the claims mention.

The fields `part` and `exit_signal` and their initial values are taken
from the header (`int part = -1, exit_signal = 0;`).  `lockPresent`
models whether the route's lock file currently exists;
`openSegments` the indices of segments currently open for writing;
`rlog`/`qlog` the frames appended to the full-log and quick-log
channels by the modelled operations. -/
structure LoggerModel where
  part : Int
  exit_signal : Int
  lockPresent : Bool
  openSegments : List Int
  rlog : List Frame
  qlog : List Frame
  deriving DecidableEq

/-- Modelled from the spec: the body of `LoggerState::LoggerState` is in
`logger.cc`, which is not among the sources; only the member
initializers `int part = -1, exit_signal = 0;` are in the header.  Per
spec section 4.4 construction creates the route directory and the lock
file; no segment index has been returned yet (the header initializes
`part` to `-1`, and the spec's testable property has the first
segment-advance produce index 0). -/
def LoggerState.init : LoggerModel :=
  { part := -1
    exit_signal := 0
    lockPresent := true
    openSegments := []
    rlog := []
    qlog := [] }

/-- The operations a caller may invoke on an active `LoggerState`. -/
inductive LogEvent where
  | write (buf : List Nat) (in_qlog : Bool) : LogEvent
  | next : LogEvent
  | setExitSignal (v : Int) : LogEvent
  deriving DecidableEq

/-- Modelled from the spec: the body of `LoggerState::write(uint8_t*,
size_t, bool)` is in `logger.cc`, which is not among the sources.  Per
spec sections 4.3/4.4 and 6: the buffer is always written to the
full-log sink, and additionally to the quick-log sink iff `in_qlog`. -/
def LoggerState.write (s : LoggerModel) (buf : List Nat) (in_qlog : Bool) :
    LoggerModel :=
  { s with
    rlog := s.rlog ++ [Frame.data buf]
    qlog := s.qlog ++ (if in_qlog then [Frame.data buf] else []) }

/-- Modelled from the spec: the body of `LoggerState::next` is in
`logger.cc`, which is not among the sources; the header gives
`segment()` as `return part;` with `part` initialized to `-1`.  Per
spec section 4.4, `next()` closes the current Segment (end-of-segment
sentinel to both channels), increments the segment index, and opens the
new Segment (start-of-segment sentinel to both channels). -/
def LoggerState.next (s : LoggerModel) : LoggerModel :=
  let closed :=
    { s with
      openSegments := []
      rlog := s.rlog ++ (if s.openSegments = [] then [] else [Frame.sentinel .segmentEnd 0])
      qlog := s.qlog ++ (if s.openSegments = [] then [] else [Frame.sentinel .segmentEnd 0]) }
  { closed with
    part := s.part + 1
    openSegments := [s.part + 1]
    rlog := closed.rlog ++ [Frame.sentinel .segmentStart 0]
    qlog := closed.qlog ++ [Frame.sentinel .segmentStart 0] }

/-- The member `LoggerState::setExitSignal`, inline in the header:
`exit_signal = signal;`. -/
def LoggerState.setExitSignal (s : LoggerModel) (v : Int) : LoggerModel :=
  { s with exit_signal := v }

/-- The member `LoggerState::segment`, inline in the header: `return part;`. -/
def LoggerState.segment (s : LoggerModel) : Int :=
  s.part

def LoggerState.applyEvent (s : LoggerModel) : LogEvent → LoggerModel
  | .write buf q => LoggerState.write s buf q
  | .next => LoggerState.next s
  | .setExitSignal v => LoggerState.setExitSignal s v

/-- Run a sequence of caller operations from a given state. -/
def LoggerState.run (s : LoggerModel) (es : List LogEvent) : LoggerModel :=
  es.foldl LoggerState.applyEvent s

/-- Modelled from the spec: the body of `LoggerState::~LoggerState` is
in `logger.cc`, which is not among the sources.  Per spec section 4.4,
teardown closes the current Segment as the terminal one (end-of-route
sentinel carrying the recorded exit signal); only after that close
completes successfully is the lock file deleted; if the close fails the
lock file is NOT deleted.  `closeOk` is whether the segment close
succeeded. -/
def LoggerState.teardown (s : LoggerModel) (closeOk : Bool) : LoggerModel :=
  if closeOk then
    { s with
      openSegments := []
      rlog := s.rlog ++ [Frame.sentinel .routeEnd s.exit_signal]
      qlog := s.qlog ++ [Frame.sentinel .routeEnd s.exit_signal]
      lockPresent := false }
  else
    s

/-- Holds (is `true`) when the trace contains a `setExitSignal` event. -/
def hasSetSignal : List LogEvent → Bool
  | [] => false
  | .setExitSignal _ :: _ => true
  | _ :: es => hasSetSignal es

/-- Number of `next` events in a trace. -/
def countNext : List LogEvent → Nat
  | [] => 0
  | .next :: es => countNext es + 1
  | _ :: es => countNext es

/-- Running the compressed write loop on a trace of interrupted-call
outcomes leaves `written` untouched and the loop still going; the run
on a longer trace first passes through the state those retries
produce. -/
lemma bzWriteLoop_all_eintr (data : List Nat) (size count : Nat)
    (t : List BzOutcome) :
    ∀ (written : Nat) (stream : List Nat) (calls : List (Nat × Nat)),
      t.all BzOutcome.isEintr = true →
      written < size →
      ∃ stream2 calls2,
        bzWriteLoop data size count written stream calls t =
          BzLoopRes.mk written stream2 calls2 true ∧
        ∀ rest, bzWriteLoop data size count written stream calls (t ++ rest) =
          bzWriteLoop data size count written stream2 calls2 rest := by
  induction t with
  | nil =>
      intro written stream calls _ hw
      exact ⟨stream, calls, by simp [bzWriteLoop, hw], fun rest => by simp⟩
  | cons o t2 ih =>
      intro written stream calls ht hw
      simp only [List.all_cons, Bool.and_eq_true] at ht
      obtain ⟨ho, ht2⟩ := ht
      cases o with
      | ok => simp [BzOutcome.isEintr] at ho
      | otherError c k => simp [BzOutcome.isEintr] at ho
      | ioErrorEintr k =>
          obtain ⟨s2, c2, heq, happ⟩ := ih written
            (stream ++ ((data.drop (written * count)).take (count * (size - written))).take k)
            (calls ++ [(written * count, count * (size - written))]) ht2 hw
          refine ⟨s2, c2, ?_, ?_⟩
          · simpa [bzWriteLoop, hw] using heq
          · intro rest
            simpa [bzWriteLoop, hw] using happ rest

/-- C1: the claim says an EINTR-interrupted compressed write, once
retried to success, yields a decompressed output holding the buffer's
bytes exactly once, the retry never resubmitting already-buffered data.
The code refutes this: on retry `written` is still `0` and `count` is
`1`, so the full buffer is submitted again from offset 0.  At the
failing input — buffer `[7]`, first `BZ2_bzWrite` call consuming the
byte into the compression stream before failing with
`BZ_IO_ERROR`/`EINTR`, retry returning `BZ_OK` — the loop terminates
with `written == size` (the assertion passes, the write "succeeds"),
both calls submitted the whole buffer at offset 0, and the stream holds
`[7, 7]`: the byte is duplicated. -/
theorem C1_retry_duplicates_buffered_bytes :
    RawFile.writeCompressed [7] [BzOutcome.ioErrorEintr 1, BzOutcome.ok] =
      BzLoopRes.mk 1 [7, 7] [(0, 1), (0, 1)] false ∧
    (RawFile.writeCompressed [7] [BzOutcome.ioErrorEintr 1, BzOutcome.ok]).assertOk 1 = true ∧
    (RawFile.writeCompressed [7] [BzOutcome.ioErrorEintr 1, BzOutcome.ok]).stream ≠ [7] := by
  decide

/-- C2: in the compressed branch of `RawFile::write`, an
interrupted-call condition (`BZ_IO_ERROR` with `errno == EINTR`) is
retried indefinitely (after any number of such outcomes the loop is
still running with `written = 0`); any other compressor error breaks
out of the loop with `written` still `0`, so for a non-empty buffer the
`assert(written == size)` fails (no partial-success return); a `BZ_OK`
outcome sets `written` to the full buffer size, satisfying the
assertion — success is exactly the counter having advanced to `size`. -/
theorem C2_eintr_retried_other_errors_fatal (data : List Nat)
    (t : List BzOutcome) (c : Int) (k : Nat)
    (hd : data ≠ []) (ht : t.all BzOutcome.isEintr = true) :
    (RawFile.writeCompressed data t).looping = true ∧
    (RawFile.writeCompressed data t).written = 0 ∧
    (RawFile.writeCompressed data (t ++ [BzOutcome.otherError c k])).looping = false ∧
    (RawFile.writeCompressed data (t ++ [BzOutcome.otherError c k])).written = 0 ∧
    (RawFile.writeCompressed data
        (t ++ [BzOutcome.otherError c k])).assertOk data.length = false ∧
    (RawFile.writeCompressed data (t ++ [BzOutcome.ok])).written = data.length ∧
    (RawFile.writeCompressed data (t ++ [BzOutcome.ok])).assertOk data.length = true := by
  have hsize : 0 < data.length := List.length_pos.mpr hd
  obtain ⟨s2, c2, heq, happ⟩ :=
    bzWriteLoop_all_eintr data data.length 1 t 0 [] [] ht hsize
  have h1 : RawFile.writeCompressed data t = BzLoopRes.mk 0 s2 c2 true := heq
  have h2 : RawFile.writeCompressed data (t ++ [BzOutcome.otherError c k]) =
      bzWriteLoop data data.length 1 0 s2 c2 [BzOutcome.otherError c k] :=
    happ [BzOutcome.otherError c k]
  have h3 : RawFile.writeCompressed data (t ++ [BzOutcome.ok]) =
      bzWriteLoop data data.length 1 0 s2 c2 [BzOutcome.ok] :=
    happ [BzOutcome.ok]
  refine ⟨by rw [h1], by rw [h1], ?_, ?_, ?_, ?_, ?_⟩
  · rw [h2]; simp [bzWriteLoop, hsize]
  · rw [h2]; simp [bzWriteLoop, hsize]
  · rw [h2]
    simp [bzWriteLoop, BzLoopRes.assertOk, hsize]
    omega
  · rw [h3]; simp [bzWriteLoop, hsize]
  · rw [h3]; simp [bzWriteLoop, BzLoopRes.assertOk, hsize]

/-- Witness for C2 at buffer `[1]` and a one-interrupt trace. -/
theorem C2_eintr_retried_other_errors_fatal_witness :
    ([1] : List Nat) ≠ [] ∧
    ([BzOutcome.ioErrorEintr 0].all BzOutcome.isEintr = true) ∧
    ((RawFile.writeCompressed [1] [BzOutcome.ioErrorEintr 0]).looping = true ∧
     (RawFile.writeCompressed [1] [BzOutcome.ioErrorEintr 0]).written = 0 ∧
     (RawFile.writeCompressed [1]
        ([BzOutcome.ioErrorEintr 0] ++ [BzOutcome.otherError 5 0])).looping = false ∧
     (RawFile.writeCompressed [1]
        ([BzOutcome.ioErrorEintr 0] ++ [BzOutcome.otherError 5 0])).written = 0 ∧
     (RawFile.writeCompressed [1]
        ([BzOutcome.ioErrorEintr 0] ++ [BzOutcome.otherError 5 0])).assertOk
          ([1] : List Nat).length = false ∧
     (RawFile.writeCompressed [1]
        ([BzOutcome.ioErrorEintr 0] ++ [BzOutcome.ok])).written = ([1] : List Nat).length ∧
     (RawFile.writeCompressed [1]
        ([BzOutcome.ioErrorEintr 0] ++ [BzOutcome.ok])).assertOk
          ([1] : List Nat).length = true) :=
  ⟨by decide, by decide,
   C2_eintr_retried_other_errors_fatal [1] [BzOutcome.ioErrorEintr 0] 5 0
     (by decide) (by decide)⟩

/-- C3: the uncompressed branch of `RawFile::write` issues exactly one
underlying write call, asking for the whole buffer, and the
`assert(written == size)` holds exactly when that call reports having
consumed all `size` bytes: a short write is a fatal assertion failure,
never a silent continuation. -/
theorem C3_single_write_short_write_fatal (size ret : Nat) :
    (RawFile.writeUncompressed size ret).calls = [size] ∧
    ((RawFile.writeUncompressed size ret).assertOk = true ↔ ret = size) := by
  refine ⟨rfl, ?_⟩
  simp [RawFile.writeUncompressed]

/-- C4: the claim says teardown flushes and closes the underlying file
on both paths.  The code refutes this for the compressed path: the
destructor's `if (bz_file)` branch issues only
`BZ2_bzWriteClose(&bzerror, bz_file, 0, ...)` and never calls
`fclose(file)` — the `fclose` (and the `safe_fflush`) appear only in
the `else` (uncompressed) branch, so the compressed sink's `FILE*` is
never closed at teardown. -/
theorem C4_compressed_teardown_never_fcloses :
    RawFile.dtor true = [TeardownAction.bzWriteClose 0] ∧
    TeardownAction.fcloseFile ∉ RawFile.dtor true ∧
    RawFile.dtor false = [TeardownAction.safe_fflush, TeardownAction.fcloseFile] ∧
    (∀ bzerror closeErr : Int, RawFile.dtorAssertOk true bzerror closeErr =
      (bzerror == 0)) := by
  refine ⟨rfl, by decide, rfl, fun bzerror closeErr => rfl⟩

/-- C5: `RawFile::RawFile(path, use_bz2)` with `use_bz2 = true` opens
`path ++ ".bz2"` (mode `"wb"`: create or truncate), a name distinct
from the uncompressed one, and opens the compressor with
`blockSize100k = 9` (maximum compression), `verbosity = 0` and
`workFactor = 30` (the bzlib default value); with `use_bz2 = false` it
opens exactly `path` and no compressor. -/
theorem C5_ctor_suffix_and_compressor_params (path : String) :
    (RawFile.ctor path true).file_path = path ++ ".bz2" ∧
    (RawFile.ctor path false).file_path = path ∧
    (RawFile.ctor path true).file_path ≠ (RawFile.ctor path false).file_path ∧
    (RawFile.ctor path true).bzParams = some (9, 0, 30) ∧
    (RawFile.ctor path false).bzParams = none ∧
    (RawFile.ctor path true).mode = "wb" ∧
    (RawFile.ctor path false).mode = "wb" := by
  refine ⟨rfl, by simp [RawFile.ctor], ?_, rfl, rfl, rfl, rfl⟩
  have hne : path ++ ".bz2" ≠ path := by
    intro h
    have h2 := congrArg String.length h
    have h3 : (".bz2" : String).length = 4 := rfl
    rw [String.length_append, h3] at h2
    omega
  simpa [RawFile.ctor] using hne

/-- C10: a zero-byte `RawFile::write` is a safe no-op on both paths:
with an empty buffer the compressed retry loop is never entered (no
compressor call is issued, no bytes enter the stream, and the final
`assert(written == size)` holds as `0 == 0`), and the uncompressed
branch's single underlying call requests 0 bytes and reports 0 (as C
guarantees for a zero-count `fwrite`), satisfying its assertion. -/
theorem C10_zero_size_write_safe (trace : List BzOutcome) :
    RawFile.writeCompressed [] trace = BzLoopRes.mk 0 [] [] false ∧
    (RawFile.writeCompressed [] trace).assertOk 0 = true ∧
    RawFile.writeUncompressed 0 0 = PlainWriteRes.mk [0] true := by
  refine ⟨?_, ?_, rfl⟩
  · cases trace <;> rfl
  · cases trace <;> rfl

lemma run_nil (s : LoggerModel) : LoggerState.run s [] = s := rfl

lemma run_cons (s : LoggerModel) (e : LogEvent) (es : List LogEvent) :
    LoggerState.run s (e :: es) = LoggerState.run (LoggerState.applyEvent s e) es := rfl

lemma run_append (s : LoggerModel) (l1 l2 : List LogEvent) :
    LoggerState.run s (l1 ++ l2) = LoggerState.run (LoggerState.run s l1) l2 := by
  simp [LoggerState.run, List.foldl_append]

lemma applyEvent_lockPresent (s : LoggerModel) (e : LogEvent) :
    (LoggerState.applyEvent s e).lockPresent = s.lockPresent := by
  cases e <;> rfl

lemma run_lockPresent (es : List LogEvent) :
    ∀ s : LoggerModel, (LoggerState.run s es).lockPresent = s.lockPresent := by
  induction es with
  | nil => intro s; rfl
  | cons e es ih =>
      intro s
      rw [run_cons, ih, applyEvent_lockPresent]

lemma run_part (es : List LogEvent) :
    ∀ s : LoggerModel, (LoggerState.run s es).part = s.part + (countNext es : Int) := by
  induction es with
  | nil => intro s; simp [run_nil, countNext]
  | cons e es ih =>
      intro s
      rw [run_cons, ih]
      cases e with
      | write buf q => simp [LoggerState.applyEvent, LoggerState.write, countNext]
      | next =>
          simp only [LoggerState.applyEvent, LoggerState.next, countNext]
          push_cast
          ring
      | setExitSignal v => simp [LoggerState.applyEvent, LoggerState.setExitSignal, countNext]

lemma run_openSegments (es : List LogEvent) :
    ∀ s : LoggerModel, (LoggerState.run s es).openSegments =
      if countNext es = 0 then s.openSegments
      else [s.part + (countNext es : Int)] := by
  induction es with
  | nil => intro s; simp [run_nil, countNext]
  | cons e es ih =>
      intro s
      rw [run_cons, ih]
      cases e with
      | write buf q => simp [LoggerState.applyEvent, LoggerState.write, countNext]
      | setExitSignal v => simp [LoggerState.applyEvent, LoggerState.setExitSignal, countNext]
      | next =>
          simp only [LoggerState.applyEvent, LoggerState.next, countNext]
          rcases Nat.eq_zero_or_pos (countNext es) with h0 | hpos
          · simp [h0]
          · have hne : countNext es ≠ 0 := Nat.pos_iff_ne_zero.mp hpos
            have hne2 : countNext es + 1 ≠ 0 := Nat.succ_ne_zero _
            simp only [hne, hne2, if_neg, if_false]
            congr 1
            push_cast
            ring

lemma countNext_replicate (n : Nat) :
    countNext (List.replicate n LogEvent.next) = n := by
  induction n with
  | zero => rfl
  | succ n ih => simp [List.replicate, countNext, ih]

lemma applyEvent_exit_signal_no_set (s : LoggerModel) (e : LogEvent)
    (he : ∀ v, e ≠ LogEvent.setExitSignal v) :
    (LoggerState.applyEvent s e).exit_signal = s.exit_signal := by
  cases e with
  | write buf q => rfl
  | next => rfl
  | setExitSignal v => exact absurd rfl (he v)

lemma run_exit_signal_no_set (es : List LogEvent) :
    ∀ s : LoggerModel, hasSetSignal es = false →
      (LoggerState.run s es).exit_signal = s.exit_signal := by
  induction es with
  | nil => intro s _; rfl
  | cons e es ih =>
      intro s h
      cases e with
      | write buf q =>
          rw [run_cons, ih _ h]; rfl
      | next =>
          rw [run_cons, ih _ h]; rfl
      | setExitSignal v => simp [hasSetSignal] at h

/-- Appending writes from a list of `(buffer, in_qlog)` pairs: the
full log receives every buffer in order, the quick log exactly the
flagged ones in order. -/
lemma run_writes (ws : List (List Nat × Bool)) :
    ∀ s : LoggerModel,
      (LoggerState.run s (ws.map (fun p => LogEvent.write p.1 p.2))).rlog =
        s.rlog ++ ws.map (fun p => Frame.data p.1) ∧
      (LoggerState.run s (ws.map (fun p => LogEvent.write p.1 p.2))).qlog =
        s.qlog ++ (ws.filter (fun p => p.2)).map (fun p => Frame.data p.1) := by
  induction ws with
  | nil => intro s; simp [run_nil]
  | cons p ws ih =>
      intro s
      obtain ⟨ihr, ihq⟩ := ih (LoggerState.write s p.1 p.2)
      constructor
      · rw [List.map_cons, run_cons]
        show (LoggerState.run (LoggerState.write s p.1 p.2) _).rlog = _
        rw [ihr]
        simp [LoggerState.write]
      · rw [List.map_cons, run_cons]
        show (LoggerState.run (LoggerState.write s p.1 p.2) _).qlog = _
        rw [ihq]
        rcases hq : p.2 with _ | _
        · simp [LoggerState.write, List.filter_cons, hq]
        · simp [LoggerState.write, List.filter_cons, hq]

/-- C6: the lock file exists from construction throughout the route's
active lifetime (after any sequence of `write`/`next`/`setExitSignal`
operations it is still present — in particular it remains present when
teardown never runs, as after a crash); after a teardown whose segment
close succeeds it is absent; after a teardown whose segment close fails
it is NOT deleted and remains present. -/
theorem C6_lock_file_lifecycle (es : List LogEvent) :
    LoggerState.init.lockPresent = true ∧
    (LoggerState.run LoggerState.init es).lockPresent = true ∧
    (LoggerState.teardown (LoggerState.run LoggerState.init es) true).lockPresent = false ∧
    (LoggerState.teardown (LoggerState.run LoggerState.init es) false).lockPresent = true := by
  refine ⟨rfl, (run_lockPresent es LoggerState.init).trans rfl, rfl, ?_⟩
  exact (run_lockPresent es LoggerState.init).trans rfl

/-- C7: starting from the header's `part = -1`, after any operation
sequence the value `segment()` returns is the number of `next` calls so
far minus one, so the values observed across successive successful
`next()` calls are exactly 0, 1, 2, … (the i-th `next` yields segment
i-1): contiguous non-negative integers with no gaps and no reuse; and
at most one segment is open for writing at any time, namely the current
one. -/
theorem C7_segment_indices_contiguous (es : List LogEvent) (i : Nat) :
    LoggerState.segment (LoggerState.run LoggerState.init es) =
      (countNext es : Int) - 1 ∧
    (LoggerState.run LoggerState.init es).openSegments =
      (if countNext es = 0 then [] else [(countNext es : Int) - 1]) ∧
    (LoggerState.run LoggerState.init es).openSegments.length ≤ 1 ∧
    LoggerState.segment
        (LoggerState.run LoggerState.init (List.replicate (i + 1) LogEvent.next)) =
      (i : Int) := by
  have hp := run_part es LoggerState.init
  have ho := run_openSegments es LoggerState.init
  refine ⟨?_, ?_, ?_, ?_⟩
  · simp only [LoggerState.segment]
    rw [hp]
    show (-1 : Int) + (countNext es : Int) = (countNext es : Int) - 1
    ring
  · rw [ho]
    rcases Nat.eq_zero_or_pos (countNext es) with h0 | hpos
    · simp [h0, LoggerState.init]
    · have hne := Nat.pos_iff_ne_zero.mp hpos
      have h5 : LoggerState.init.part + (countNext es : Int) =
          (countNext es : Int) - 1 := by
        show (-1 : Int) + (countNext es : Int) = (countNext es : Int) - 1
        ring
      rw [if_neg hne, if_neg hne, h5]
  · rw [ho]
    rcases Nat.eq_zero_or_pos (countNext es) with h0 | hpos
    · simp [h0, LoggerState.init]
    · have hne := Nat.pos_iff_ne_zero.mp hpos
      rw [if_neg hne]
      simp
  · simp only [LoggerState.segment]
    rw [run_part, countNext_replicate]
    show (-1 : Int) + ((i + 1 : Nat) : Int) = (i : Int)
    push_cast
    ring

/-- C8: `exit_signal` starts at the neutral default 0 (header
initializer) and stays 0 when `setExitSignal` is never called; each
`setExitSignal` call overwrites it, so after the last call before
teardown the recorded value is the last value passed; teardown embeds
exactly that value in the end-of-route sentinel written to both
channels. -/
theorem C8_exit_signal_last_wins (es tail : List LogEvent) (v : Int)
    (htail : hasSetSignal tail = false) :
    LoggerState.init.exit_signal = 0 ∧
    (hasSetSignal es = false →
      (LoggerState.run LoggerState.init es).exit_signal = 0) ∧
    (LoggerState.run LoggerState.init
        (es ++ LogEvent.setExitSignal v :: tail)).exit_signal = v ∧
    (LoggerState.teardown (LoggerState.run LoggerState.init
        (es ++ LogEvent.setExitSignal v :: tail)) true).rlog.getLast? =
      some (Frame.sentinel SentinelKind.routeEnd v) ∧
    (LoggerState.teardown (LoggerState.run LoggerState.init
        (es ++ LogEvent.setExitSignal v :: tail)) true).qlog.getLast? =
      some (Frame.sentinel SentinelKind.routeEnd v) := by
  have hmid : (LoggerState.run LoggerState.init
      (es ++ LogEvent.setExitSignal v :: tail)).exit_signal = v := by
    rw [run_append, run_cons, run_exit_signal_no_set tail _ htail]
    rfl
  refine ⟨rfl, ?_, hmid, ?_, ?_⟩
  · intro h
    exact (run_exit_signal_no_set es _ h).trans rfl
  · simp [LoggerState.teardown, List.getLast?_concat, hmid]
  · simp [LoggerState.teardown, List.getLast?_concat, hmid]

/-- Witness for C8 at a concrete trace: one `next` before, value 3,
one `next` after. -/
theorem C8_exit_signal_last_wins_witness :
    hasSetSignal [LogEvent.next] = false ∧
    (LoggerState.init.exit_signal = 0 ∧
     (hasSetSignal [LogEvent.next] = false →
       (LoggerState.run LoggerState.init [LogEvent.next]).exit_signal = 0) ∧
     (LoggerState.run LoggerState.init
        ([LogEvent.next] ++ LogEvent.setExitSignal 3 :: [LogEvent.next])).exit_signal = 3 ∧
     (LoggerState.teardown (LoggerState.run LoggerState.init
        ([LogEvent.next] ++ LogEvent.setExitSignal 3 :: [LogEvent.next])) true).rlog.getLast? =
       some (Frame.sentinel SentinelKind.routeEnd 3) ∧
     (LoggerState.teardown (LoggerState.run LoggerState.init
        ([LogEvent.next] ++ LogEvent.setExitSignal 3 :: [LogEvent.next])) true).qlog.getLast? =
       some (Frame.sentinel SentinelKind.routeEnd 3)) :=
  ⟨by decide, C8_exit_signal_last_wins [LogEvent.next] [LogEvent.next] 3 (by decide)⟩

/-- C9: `LoggerState::write(buffer, in_qlog)` appends the buffer to
the full-log channel unconditionally and to the quick-log channel iff
`in_qlog` is true; over any sequence of writes the quick log receives
exactly the flagged buffers in write order, a sublist of the full log's
frame sequence — frames sent to both channels appear in the same
relative order in each. -/
theorem C9_write_routing (s : LoggerModel) (buf : List Nat) (q : Bool)
    (ws : List (List Nat × Bool)) :
    (LoggerState.write s buf q).rlog = s.rlog ++ [Frame.data buf] ∧
    (LoggerState.write s buf true).qlog = s.qlog ++ [Frame.data buf] ∧
    (LoggerState.write s buf false).qlog = s.qlog ∧
    (LoggerState.run LoggerState.init (ws.map (fun p => LogEvent.write p.1 p.2))).rlog =
      ws.map (fun p => Frame.data p.1) ∧
    (LoggerState.run LoggerState.init (ws.map (fun p => LogEvent.write p.1 p.2))).qlog =
      (ws.filter (fun p => p.2)).map (fun p => Frame.data p.1) ∧
    List.Sublist
      (LoggerState.run LoggerState.init (ws.map (fun p => LogEvent.write p.1 p.2))).qlog
      (LoggerState.run LoggerState.init (ws.map (fun p => LogEvent.write p.1 p.2))).rlog := by
  obtain ⟨hr, hq⟩ := run_writes ws LoggerState.init
  refine ⟨rfl, rfl, by simp [LoggerState.write], ?_, ?_, ?_⟩
  · rw [hr]
    simp [LoggerState.init]
  · rw [hq]
    simp [LoggerState.init]
  · rw [hr, hq]
    simp only [LoggerState.init, List.nil_append]
    exact List.Sublist.map _ (List.filter_sublist ws)

end Logger
